import Mathlib

/-!
Shallow embedding of the options-simulator pricing/analytics core
(`payoffCalculations`): option legs and strategies, expiration payoff,
heuristic Greeks, the synthetic premium estimator, the payoff-curve
generator, and strategy statistics.  JavaScript numbers are modelled as
real numbers; the `-Infinity`/`Infinity` sentinels used by the statistics
extractor are modelled in `EReal`.
-/

noncomputable section

/-- `type` field of an option leg: `'call' | 'put'`. -/
inductive OptionType
  | call
  | put

/-- `action` field of an option leg: `'buy' | 'sell'`. -/
inductive OptionAction
  | buy
  | sell

/-- One option position within a strategy (interface `OptionLeg`). -/
structure OptionLeg where
  type : OptionType
  action : OptionAction
  strike : ℝ
  premium : ℝ
  quantity : ℝ

/-- A named collection of legs (interface `Strategy`). -/
structure Strategy where
  name : String
  legs : List OptionLeg

/-- Payoff for a single option leg at expiration (`calculateLegPayoff`). -/
def calculateLegPayoff (leg : OptionLeg) (underlyingPrice : ℝ) : ℝ :=
  let intrinsicValue : ℝ :=
    match leg.type with
    | .call => max 0 (underlyingPrice - leg.strike)
    | .put => max 0 (leg.strike - underlyingPrice)
  let multiplier : ℝ := match leg.action with | .buy => 1 | .sell => -1
  let premiumCost : ℝ := match leg.action with | .buy => -leg.premium | .sell => leg.premium
  (intrinsicValue * multiplier + premiumCost) * leg.quantity * 100

/-- Total strategy payoff at expiration (`calculateStrategyPayoff`),
a `reduce` with accumulator starting at 0. -/
def calculateStrategyPayoff (strategy : Strategy) (underlyingPrice : ℝ) : ℝ :=
  strategy.legs.foldl (fun total leg => total + calculateLegPayoff leg underlyingPrice) 0

lemma foldl_add_legPayoff (l : List OptionLeg) (p a : ℝ) :
    l.foldl (fun total leg => total + calculateLegPayoff leg p) a =
      a + (l.map (fun leg => calculateLegPayoff leg p)).sum := by
  induction l generalizing a with
  | nil => simp
  | cons x xs ih =>
    simp only [List.foldl_cons, List.map_cons, List.sum_cons, ih]
    ring

/-- `calculateDelta`: per-leg logistic curve in
`(price - strike) / (currentPrice * 0.1)`, signed by action, summed over
legs scaled by quantity.  (The source also binds an unused
`moneyness = price / leg.strike`.) -/
def calculateDelta (strategy : Strategy) (price currentPrice : ℝ) : ℝ :=
  strategy.legs.foldl (fun totalDelta leg =>
    let legDelta : ℝ :=
      match leg.type with
      | .call => 1 / (1 + Real.exp (-((price - leg.strike) / (currentPrice * 0.1))))
      | .put => -1 / (1 + Real.exp ((price - leg.strike) / (currentPrice * 0.1)))
    let multiplier : ℝ := match leg.action with | .buy => 1 | .sell => -1
    totalDelta + legDelta * multiplier * leg.quantity) 0

/-- `calculateGamma`: Gaussian bump centered at the strike, scaled by 0.02. -/
def calculateGamma (strategy : Strategy) (price currentPrice : ℝ) : ℝ :=
  strategy.legs.foldl (fun totalGamma leg =>
    let normalizedDistance := |price - leg.strike| / (currentPrice * 0.1)
    let legGamma := Real.exp (-normalizedDistance ^ 2) * 0.02
    let multiplier : ℝ := match leg.action with | .buy => 1 | .sell => -1
    totalGamma + legGamma * multiplier * leg.quantity) 0

/-- `calculateTheta`: `-premium * 0.03` scaled by an at-the-money Gaussian
factor and `sqrt(daysToExpiration / 30)`. -/
def calculateTheta (strategy : Strategy) (price currentPrice : ℝ)
    (daysToExpiration : ℝ := 30) : ℝ :=
  strategy.legs.foldl (fun totalTheta leg =>
    let timeEffect := Real.sqrt (daysToExpiration / 30)
    let atmFactor := Real.exp (-((|price - leg.strike| / currentPrice) ^ 2 * 2))
    let baseTheta := -leg.premium * 0.03 * atmFactor * timeEffect
    let multiplier : ℝ := match leg.action with | .buy => 1 | .sell => -1
    totalTheta + baseTheta * multiplier * leg.quantity) 0

/-- `calculateVega`: `premium * 0.15` scaled by a (steeper) at-the-money
Gaussian factor and `sqrt(daysToExpiration / 30)`. -/
def calculateVega (strategy : Strategy) (price currentPrice : ℝ)
    (daysToExpiration : ℝ := 30) : ℝ :=
  strategy.legs.foldl (fun totalVega leg =>
    let atmFactor := Real.exp (-((|price - leg.strike| / currentPrice) ^ 2 * 3))
    let timeEffect := Real.sqrt (daysToExpiration / 30)
    let baseVega := leg.premium * 0.15 * atmFactor * timeEffect
    let multiplier : ℝ := match leg.action with | .buy => 1 | .sell => -1
    totalVega + baseVega * multiplier * leg.quantity) 0

/-- `calculateRealisticPremium`: intrinsic value plus a heuristic time value
floored at 0.05.  (The source also binds an unused `riskFreeRate = 0.05`.) -/
def calculateRealisticPremium (type : OptionType) (strike currentPrice : ℝ)
    (daysToExpiration : ℝ := 30) : ℝ :=
  let intrinsicValue : ℝ :=
    match type with
    | .call => max 0 (currentPrice - strike)
    | .put => max 0 (strike - currentPrice)
  let timeToExpiration := daysToExpiration / 365
  let volatility : ℝ := 0.25
  let moneyness := |currentPrice - strike| / currentPrice
  let atmTimeValue := currentPrice * volatility * Real.sqrt timeToExpiration * 0.4
  let moneynessFactor := Real.exp (-(moneyness * 5) ^ 2)
  let timeValue := atmTimeValue * moneynessFactor
  let totalPremium := intrinsicValue + timeValue
  max 0.05 totalPremium

/-- JavaScript `premium || fallback` where `premium` is an optional number:
an omitted argument and an explicit `0` are both falsy, so both select the
fallback. -/
def orFalsy (premium : Option ℝ) (fallback : ℝ) : ℝ :=
  match premium with
  | some p => if p = 0 then fallback else p
  | none => fallback

/-- `createLongCallStrategy`. -/
def createLongCallStrategy (strike currentPrice : ℝ) (daysToExpiration : ℝ := 30)
    (premium : Option ℝ := none) : Strategy :=
  let defaultPremium :=
    orFalsy premium (calculateRealisticPremium .call strike currentPrice daysToExpiration)
  { name := "Long Call"
    legs := [{ type := .call, action := .buy, strike := strike,
               premium := defaultPremium, quantity := 1 }] }

/-- `createBullCallSpreadStrategy`: long call at `longStrike`, short call at
`shortStrike`, both premiums from the estimator. -/
def createBullCallSpreadStrategy (longStrike shortStrike currentPrice : ℝ)
    (daysToExpiration : ℝ := 30) : Strategy :=
  let longPremium := calculateRealisticPremium .call longStrike currentPrice daysToExpiration
  let shortPremium := calculateRealisticPremium .call shortStrike currentPrice daysToExpiration
  { name := "Bull Call Spread"
    legs := [{ type := .call, action := .buy, strike := longStrike,
               premium := longPremium, quantity := 1 },
             { type := .call, action := .sell, strike := shortStrike,
               premium := shortPremium, quantity := 1 }] }

/-- `createLongPutStrategy`. -/
def createLongPutStrategy (strike currentPrice : ℝ) (daysToExpiration : ℝ := 30)
    (premium : Option ℝ := none) : Strategy :=
  let defaultPremium :=
    orFalsy premium (calculateRealisticPremium .put strike currentPrice daysToExpiration)
  { name := "Long Put"
    legs := [{ type := .put, action := .buy, strike := strike,
               premium := defaultPremium, quantity := 1 }] }

/-- `createShortCallStrategy`. -/
def createShortCallStrategy (strike currentPrice : ℝ) (daysToExpiration : ℝ := 30)
    (premium : Option ℝ := none) : Strategy :=
  let defaultPremium :=
    orFalsy premium (calculateRealisticPremium .call strike currentPrice daysToExpiration)
  { name := "Short Call"
    legs := [{ type := .call, action := .sell, strike := strike,
               premium := defaultPremium, quantity := 1 }] }

/-- `createShortPutStrategy`. -/
def createShortPutStrategy (strike currentPrice : ℝ) (daysToExpiration : ℝ := 30)
    (premium : Option ℝ := none) : Strategy :=
  let defaultPremium :=
    orFalsy premium (calculateRealisticPremium .put strike currentPrice daysToExpiration)
  { name := "Short Put"
    legs := [{ type := .put, action := .sell, strike := strike,
               premium := defaultPremium, quantity := 1 }] }

/-- One sample of the payoff/Greeks curve produced by `generatePayoffData`. -/
structure CurvePoint where
  price : ℝ
  payoff : ℝ
  delta : ℝ
  gamma : ℝ
  theta : ℝ
  vega : ℝ

/-- `generatePayoffData`: 201 evenly spaced samples (`steps = 200`,
loop `i = 0..steps` inclusive) across `currentPrice ± currentPrice*priceRange`;
`stop` renders the source's local `end`.  Theta and Vega are evaluated with
`daysToExpiration = 30` at this entry point. -/
def generatePayoffData (strategy : Strategy) (currentPrice : ℝ)
    (priceRange : ℝ := 0.15) : List CurvePoint :=
  let range := currentPrice * priceRange
  let start := currentPrice - range
  let stop := currentPrice + range
  let stepSize := (stop - start) / 200
  (List.range 201).map fun (i : ℕ) =>
    let price := start + (i : ℝ) * stepSize
    { price := price
      payoff := calculateStrategyPayoff strategy price
      delta := calculateDelta strategy price currentPrice
      gamma := calculateGamma strategy price currentPrice
      theta := calculateTheta strategy price currentPrice 30
      vega := calculateVega strategy price currentPrice 30 }

/-- JavaScript `Math.max(...xs)`: fold of binary max starting from
`-Infinity`, modelled in `EReal`. -/
def jsMax (xs : List ℝ) : EReal :=
  xs.foldl (fun m x => max m (x : EReal)) ⊥

/-- JavaScript `Math.min(...xs)`: fold of binary min starting from
`Infinity`, modelled in `EReal`. -/
def jsMin (xs : List ℝ) : EReal :=
  xs.foldl (fun m x => min m (x : EReal)) ⊤

/-- Linear interpolation of the zero crossing between adjacent curve points,
as in the breakeven loop of `calculateStrategyStats`. -/
def breakevenOfPair (prev curr : CurvePoint) : ℝ :=
  prev.price + (|prev.payoff| / (|prev.payoff| + |curr.payoff|)) * (curr.price - prev.price)

/-- The breakeven loop of `calculateStrategyStats`: walk consecutive point
pairs and record an interpolated crossing wherever the payoff moves between
the `≤ 0` and `> 0` sides. -/
def findBreakevens : List CurvePoint → List ℝ
  | prev :: curr :: rest =>
    if (prev.payoff ≤ 0 ∧ 0 < curr.payoff) ∨ (0 < prev.payoff ∧ curr.payoff ≤ 0) then
      breakevenOfPair prev curr :: findBreakevens (curr :: rest)
    else
      findBreakevens (curr :: rest)
  | _ => []

/-- Result record of `calculateStrategyStats`; `maxProfit`/`maxLoss` live in
`EReal` because the source compares them against `±Infinity`. -/
structure StrategyStats where
  maxProfit : EReal
  maxLoss : EReal
  breakeven : List ℝ
  profitProbability : ℝ

/-- `calculateStrategyStats`: derives max profit, max loss, breakevens and
a naive profit probability from `generatePayoffData(strategy, currentPrice)`
(the default `priceRange = 0.15`). -/
def calculateStrategyStats (strategy : Strategy) (currentPrice : ℝ) : StrategyStats :=
  let data := generatePayoffData strategy currentPrice 0.15
  let payoffs := data.map (fun d => d.payoff)
  let maxProfit := jsMax payoffs
  let maxLoss := jsMin payoffs
  let breakevens := findBreakevens data
  let profitablePoints := (payoffs.filter (fun p => 0 < p)).length
  let profitProbability := ((profitablePoints : ℝ) / (payoffs.length : ℝ)) * 100
  { maxProfit := if maxProfit = ⊥ then ⊤ else maxProfit
    maxLoss := if maxLoss = ⊤ then ⊥ else maxLoss
    breakeven := breakevens
    profitProbability := profitProbability }

/-- Statistics Extractor as the specification describes it: a function of a
curve alone — max/min of the payoff field with the defensive `±Infinity`
replacement, interpolated breakeven crossings, and
`100 * (points with payoff > 0) / (total points)`. -/
def extractStats (curve : List CurvePoint) : StrategyStats :=
  let payoffs := curve.map (fun d => d.payoff)
  let maxProfit := jsMax payoffs
  let maxLoss := jsMin payoffs
  let breakevens := findBreakevens curve
  let profitablePoints := (payoffs.filter (fun p => 0 < p)).length
  let profitProbability := ((profitablePoints : ℝ) / (payoffs.length : ℝ)) * 100
  { maxProfit := if maxProfit = ⊥ then ⊤ else maxProfit
    maxLoss := if maxLoss = ⊤ then ⊥ else maxLoss
    breakeven := breakevens
    profitProbability := profitProbability }

/-- Flip a leg's action between buy and sell. -/
def flipAction : OptionAction → OptionAction
  | .buy => .sell
  | .sell => .buy

/-- Breakeven list as the specification words it: one interpolated entry for
each consecutive pair of curve points whose payoffs fall on opposite sides of
the `≤ 0` / `> 0` partition. -/
def breakevenPairsSpec (data : List CurvePoint) : List ℝ :=
  (data.zip data.tail).filterMap fun pq =>
    if (pq.1.payoff ≤ 0 ∧ 0 < pq.2.payoff) ∨ (0 < pq.1.payoff ∧ pq.2.payoff ≤ 0) then
      some (breakevenOfPair pq.1 pq.2)
    else none

/-- Claim C1: a long call leg with strike `K`, premium `Pr`, quantity 1 pays
`-Pr*100` at any price `p ≤ K` and `(p-K-Pr)*100` at any `p > K`; in
particular with `K = 100`, `Pr = 5` the payoff at price 100 is `-500` and at
price 110 is `500`. -/
theorem legPayoff_long_call (K Pr p : ℝ) :
    (p ≤ K → calculateLegPayoff ⟨.call, .buy, K, Pr, 1⟩ p = -Pr * 100) ∧
    (K < p → calculateLegPayoff ⟨.call, .buy, K, Pr, 1⟩ p = (p - K - Pr) * 100) ∧
    calculateLegPayoff ⟨.call, .buy, 100, 5, 1⟩ 100 = -500 ∧
    calculateLegPayoff ⟨.call, .buy, 100, 5, 1⟩ 110 = 500 := by
  refine ⟨fun h => ?_, fun h => ?_, ?_, ?_⟩
  · simp only [calculateLegPayoff]
    rw [max_eq_left (by linarith)]
    ring
  · simp only [calculateLegPayoff]
    rw [max_eq_right (by linarith)]
    ring
  · simp only [calculateLegPayoff]
    norm_num
  · simp only [calculateLegPayoff]
    rw [max_eq_right (by norm_num)]
    norm_num

theorem legPayoff_long_call_witness :
    ((90 : ℝ) ≤ 100 ∧ calculateLegPayoff ⟨.call, .buy, 100, 5, 1⟩ 90 = -5 * 100) ∧
    ((100 : ℝ) < 110 ∧ calculateLegPayoff ⟨.call, .buy, 100, 5, 1⟩ 110 = (110 - 100 - 5) * 100) :=
  ⟨⟨by norm_num, (legPayoff_long_call 100 5 90).1 (by norm_num)⟩,
   ⟨by norm_num, (legPayoff_long_call 100 5 110).2.1 (by norm_num)⟩⟩

/-- Claim C2: strategy payoff is the sum of per-leg payoffs, and is invariant
under any permutation of the legs. -/
theorem strategyPayoff_additive_perm (S : Strategy) (p : ℝ) :
    calculateStrategyPayoff S p = (S.legs.map (fun leg => calculateLegPayoff leg p)).sum ∧
    ∀ S' : Strategy, S.legs.Perm S'.legs →
      calculateStrategyPayoff S' p = calculateStrategyPayoff S p := by
  constructor
  · simp [calculateStrategyPayoff, foldl_add_legPayoff]
  · intro S' hperm
    simp only [calculateStrategyPayoff, foldl_add_legPayoff, zero_add]
    exact ((hperm.map (fun leg => calculateLegPayoff leg p)).sum_eq).symm

theorem strategyPayoff_additive_perm_witness :
    (List.Perm
        [(⟨.call, .buy, 100, 5, 1⟩ : OptionLeg), ⟨.put, .sell, 90, 3, 1⟩]
        [(⟨.put, .sell, 90, 3, 1⟩ : OptionLeg), ⟨.call, .buy, 100, 5, 1⟩]) ∧
    calculateStrategyPayoff
        ⟨"S", [⟨.put, .sell, 90, 3, 1⟩, ⟨.call, .buy, 100, 5, 1⟩]⟩ 95 =
      calculateStrategyPayoff
        ⟨"S", [⟨.call, .buy, 100, 5, 1⟩, ⟨.put, .sell, 90, 3, 1⟩]⟩ 95 :=
  ⟨List.Perm.swap _ _ _,
   (strategyPayoff_additive_perm
      ⟨"S", [⟨.call, .buy, 100, 5, 1⟩, ⟨.put, .sell, 90, 3, 1⟩]⟩ 95).2
      ⟨"S", [⟨.put, .sell, 90, 3, 1⟩, ⟨.call, .buy, 100, 5, 1⟩]⟩
      (List.Perm.swap _ _ _)⟩

lemma floor_le_realisticPremium (t : OptionType) (strike cp d : ℝ) :
    (0.05 : ℝ) ≤ calculateRealisticPremium t strike cp d := by
  simp only [calculateRealisticPremium]
  exact le_max_left _ _

/-- Claim C3: for either option type, `calculateRealisticPremium` equals
`max(0.05, intrinsic + currentPrice * 0.25 * sqrt(daysToExpiration/365) * 0.4
* exp(-(5*|currentPrice-strike|/currentPrice)^2))` where intrinsic is the
call/put intrinsic value, and is therefore always at least 0.05. -/
theorem realisticPremium_formula (t : OptionType) (strike cp d : ℝ) (hcp : 0 < cp) :
    calculateRealisticPremium t strike cp d =
      max 0.05
        ((match t with
          | OptionType.call => max 0 (cp - strike)
          | OptionType.put => max 0 (strike - cp)) +
          cp * 0.25 * Real.sqrt (d / 365) * 0.4 *
            Real.exp (-(5 * |cp - strike| / cp) ^ 2)) ∧
    0.05 ≤ calculateRealisticPremium t strike cp d := by
  constructor
  · have harg : -(|cp - strike| / cp * 5) ^ 2 = -(5 * |cp - strike| / cp) ^ 2 := by ring
    cases t <;> simp only [calculateRealisticPremium] <;> rw [harg]
  · exact floor_le_realisticPremium t strike cp d

theorem realisticPremium_formula_witness :
    (0 : ℝ) < 100 ∧
    (calculateRealisticPremium .call 95 100 30 =
      max 0.05 (max 0 (100 - 95) + 100 * 0.25 * Real.sqrt (30 / 365) * 0.4 *
        Real.exp (-(5 * |(100 : ℝ) - 95| / 100) ^ 2)) ∧
     0.05 ≤ calculateRealisticPremium .call 95 100 30) :=
  ⟨by norm_num, realisticPremium_formula .call 95 100 30 (by norm_num)⟩

/-- Claim C4 counterexample: supplying the explicit premium `0` to
`createLongCallStrategy` does not leave the leg's premium at `0`; the JS
`premium || estimate` expression treats `0` as falsy and substitutes the
estimator's value. -/
theorem factory_premium_zero_counterexample :
    (createLongCallStrategy 100 100 30 (some 0)).legs.map OptionLeg.premium ≠ [0] := by
  have h5 : (0.05 : ℝ) ≤ calculateRealisticPremium .call 100 100 30 :=
    floor_le_realisticPremium .call 100 100 30
  intro hEq
  simp only [createLongCallStrategy, orFalsy, List.map_cons, List.map_nil, if_true,
    List.cons.injEq, and_true] at hEq
  linarith [h5]

/-- Claim C4 (amended): each single-leg factory uses an explicitly supplied
premium exactly when that premium is nonzero; when the premium argument is
omitted — or when the supplied value is `0`, which `premium ||` treats as
falsy — the leg's premium is filled by `calculateRealisticPremium`. -/
theorem factory_premium_amended (strike cp d p : ℝ) (hp : p ≠ 0) :
    (createLongCallStrategy strike cp d (some p)).legs.map OptionLeg.premium = [p] ∧
    (createShortCallStrategy strike cp d (some p)).legs.map OptionLeg.premium = [p] ∧
    (createLongPutStrategy strike cp d (some p)).legs.map OptionLeg.premium = [p] ∧
    (createShortPutStrategy strike cp d (some p)).legs.map OptionLeg.premium = [p] ∧
    (createLongCallStrategy strike cp d none).legs.map OptionLeg.premium =
      [calculateRealisticPremium .call strike cp d] ∧
    (createShortCallStrategy strike cp d none).legs.map OptionLeg.premium =
      [calculateRealisticPremium .call strike cp d] ∧
    (createLongPutStrategy strike cp d none).legs.map OptionLeg.premium =
      [calculateRealisticPremium .put strike cp d] ∧
    (createShortPutStrategy strike cp d none).legs.map OptionLeg.premium =
      [calculateRealisticPremium .put strike cp d] ∧
    (createLongCallStrategy strike cp d (some 0)).legs.map OptionLeg.premium =
      [calculateRealisticPremium .call strike cp d] ∧
    (createShortCallStrategy strike cp d (some 0)).legs.map OptionLeg.premium =
      [calculateRealisticPremium .call strike cp d] ∧
    (createLongPutStrategy strike cp d (some 0)).legs.map OptionLeg.premium =
      [calculateRealisticPremium .put strike cp d] ∧
    (createShortPutStrategy strike cp d (some 0)).legs.map OptionLeg.premium =
      [calculateRealisticPremium .put strike cp d] := by
  simp [createLongCallStrategy, createShortCallStrategy, createLongPutStrategy,
    createShortPutStrategy, orFalsy, hp]

theorem factory_premium_amended_witness :
    (7 : ℝ) ≠ 0 ∧
    (createLongCallStrategy 100 100 30 (some 7)).legs.map OptionLeg.premium = [7] :=
  ⟨by norm_num, (factory_premium_amended 100 100 30 7 (by norm_num)).1⟩

/-- Claim C6: every point of any curve produced by `generatePayoffData` has
its theta and vega computed with `daysToExpiration = 30`, regardless of the
strategy's actual expiration horizon. -/
theorem payoffData_theta_vega_thirty (s : Strategy) (cp pr : ℝ) (pt : CurvePoint)
    (hmem : pt ∈ generatePayoffData s cp pr) :
    pt.theta = calculateTheta s pt.price cp 30 ∧
    pt.vega = calculateVega s pt.price cp 30 := by
  simp only [generatePayoffData, List.mem_map] at hmem
  obtain ⟨i, -, rfl⟩ := hmem
  exact ⟨rfl, rfl⟩

theorem payoffData_theta_vega_thirty_witness :
    ((⟨1, 0, 0, 0, 0, 0⟩ : CurvePoint) ∈ generatePayoffData ⟨"Empty", []⟩ 1 0) ∧
    (⟨1, 0, 0, 0, 0, 0⟩ : CurvePoint).theta =
      calculateTheta ⟨"Empty", []⟩ (⟨1, 0, 0, 0, 0, 0⟩ : CurvePoint).price 1 30 ∧
    (⟨1, 0, 0, 0, 0, 0⟩ : CurvePoint).vega =
      calculateVega ⟨"Empty", []⟩ (⟨1, 0, 0, 0, 0, 0⟩ : CurvePoint).price 1 30 := by
  have hmem : (⟨1, 0, 0, 0, 0, 0⟩ : CurvePoint) ∈ generatePayoffData ⟨"Empty", []⟩ 1 0 := by
    simp only [generatePayoffData, List.mem_map, List.mem_range]
    refine ⟨0, by norm_num, ?_⟩
    simp [calculateStrategyPayoff, calculateDelta, calculateGamma, calculateTheta,
      calculateVega]
  exact ⟨hmem, (payoffData_theta_vega_thirty ⟨"Empty", []⟩ 1 0 _ hmem).1,
    (payoffData_theta_vega_thirty ⟨"Empty", []⟩ 1 0 _ hmem).2⟩

/-- Claim C8: for a single-leg strategy, flipping the leg's action between
buy and sell (all other fields fixed) negates Delta, Gamma, Theta and Vega. -/
theorem greeks_action_flip_neg (t : OptionType) (a : OptionAction) (K Pr q p cp d : ℝ)
    (n : String) (hcp : cp ≠ 0) :
    calculateDelta ⟨n, [⟨t, flipAction a, K, Pr, q⟩]⟩ p cp =
      -calculateDelta ⟨n, [⟨t, a, K, Pr, q⟩]⟩ p cp ∧
    calculateGamma ⟨n, [⟨t, flipAction a, K, Pr, q⟩]⟩ p cp =
      -calculateGamma ⟨n, [⟨t, a, K, Pr, q⟩]⟩ p cp ∧
    calculateTheta ⟨n, [⟨t, flipAction a, K, Pr, q⟩]⟩ p cp d =
      -calculateTheta ⟨n, [⟨t, a, K, Pr, q⟩]⟩ p cp d ∧
    calculateVega ⟨n, [⟨t, flipAction a, K, Pr, q⟩]⟩ p cp d =
      -calculateVega ⟨n, [⟨t, a, K, Pr, q⟩]⟩ p cp d := by
  cases a <;> cases t <;>
    simp only [calculateDelta, calculateGamma, calculateTheta, calculateVega, flipAction,
      List.foldl_cons, List.foldl_nil] <;>
    exact ⟨by ring, by ring, by ring, by ring⟩

theorem greeks_action_flip_neg_witness :
    (100 : ℝ) ≠ 0 ∧
    calculateDelta ⟨"X", [⟨.call, flipAction .buy, 100, 5, 1⟩]⟩ 100 100 =
      -calculateDelta ⟨"X", [⟨.call, .buy, 100, 5, 1⟩]⟩ 100 100 :=
  ⟨by norm_num,
   (greeks_action_flip_neg .call .buy 100 5 1 100 100 30 "X" (by norm_num)).1⟩

/-- Claim C9: `calculateStrategyStats` is exactly the Statistics Extractor
applied to `generatePayoffData(strategy, currentPrice, 0.15)` — the default
201-point ±15% curve; no caller-supplied curve or price range enters. -/
theorem stats_refines_extract (s : Strategy) (cp : ℝ) :
    calculateStrategyStats s cp = extractStats (generatePayoffData s cp 0.15) ∧
    (generatePayoffData s cp 0.15).length = 201 := by
  refine ⟨rfl, ?_⟩
  simp only [generatePayoffData, List.length_map, List.length_range]

lemma findBreakevens_eq_pairsSpec : ∀ data : List CurvePoint,
    findBreakevens data = breakevenPairsSpec data := by
  intro data
  induction data with
  | nil => rfl
  | cons p tl ih =>
    cases tl with
    | nil => rfl
    | cons q rest =>
      simp only [findBreakevens]
      rw [ih]
      simp only [breakevenPairsSpec, List.tail_cons, List.zip_cons_cons, List.filterMap_cons]
      split_ifs with hc <;> rfl

lemma breakevenOfPair_bounds (p q : CurvePoint) (hle : p.price ≤ q.price)
    (hflip : (p.payoff ≤ 0 ∧ 0 < q.payoff) ∨ (0 < p.payoff ∧ q.payoff ≤ 0)) :
    p.price ≤ breakevenOfPair p q ∧ breakevenOfPair p q ≤ q.price := by
  have ha : 0 ≤ |p.payoff| := abs_nonneg _
  have hd : 0 < |p.payoff| + |q.payoff| := by
    rcases hflip with ⟨h1, h2⟩ | ⟨h1, h2⟩
    · have hb : 0 < |q.payoff| := abs_pos.mpr (ne_of_gt h2)
      linarith
    · have hb : 0 < |p.payoff| := abs_pos.mpr (ne_of_gt h1)
      have hq : 0 ≤ |q.payoff| := abs_nonneg _
      linarith
  have hr0 : 0 ≤ |p.payoff| / (|p.payoff| + |q.payoff|) := div_nonneg ha (le_of_lt hd)
  have hr1 : |p.payoff| / (|p.payoff| + |q.payoff|) ≤ 1 := by
    rw [div_le_one hd]
    have hb : 0 ≤ |q.payoff| := abs_nonneg _
    linarith
  have hdiff : 0 ≤ q.price - p.price := sub_nonneg.mpr hle
  unfold breakevenOfPair
  constructor
  · nlinarith [mul_nonneg hr0 hdiff]
  · nlinarith [mul_le_of_le_one_left hdiff hr1]

lemma price_le_findBreakevens : ∀ (p : CurvePoint) (rest : List CurvePoint),
    (p :: rest).Chain' (fun a b => a.price ≤ b.price) →
    ∀ x ∈ findBreakevens (p :: rest), p.price ≤ x := by
  intro p rest
  induction rest generalizing p with
  | nil =>
    intro _ x hx
    simp [findBreakevens] at hx
  | cons q rest ih =>
    intro hchain x hx
    obtain ⟨hpq, hchain'⟩ := List.chain'_cons.mp hchain
    simp only [findBreakevens] at hx
    by_cases hc : (p.payoff ≤ 0 ∧ 0 < q.payoff) ∨ (0 < p.payoff ∧ q.payoff ≤ 0)
    · rw [if_pos hc] at hx
      rcases List.mem_cons.mp hx with rfl | hx'
      · exact (breakevenOfPair_bounds p q hpq hc).1
      · exact le_trans hpq (ih q hchain' x hx')
    · rw [if_neg hc] at hx
      exact le_trans hpq (ih q hchain' x hx)

lemma findBreakevens_sorted : ∀ data : List CurvePoint,
    data.Chain' (fun a b => a.price ≤ b.price) →
    (findBreakevens data).Sorted (fun a b => a ≤ b) := by
  intro data
  induction data with
  | nil => intro _; simp [findBreakevens]
  | cons p tl ih =>
    cases tl with
    | nil => intro _; simp [findBreakevens]
    | cons q rest =>
      intro hchain
      obtain ⟨hpq, hchain'⟩ := List.chain'_cons.mp hchain
      have htail := ih hchain'
      simp only [findBreakevens]
      by_cases hc : (p.payoff ≤ 0 ∧ 0 < q.payoff) ∨ (0 < p.payoff ∧ q.payoff ≤ 0)
      · rw [if_pos hc, List.sorted_cons]
        refine ⟨fun x hx => ?_, htail⟩
        exact le_trans (breakevenOfPair_bounds p q hpq hc).2
          (price_le_findBreakevens q rest hchain' x hx)
      · rw [if_neg hc]
        exact htail

lemma generatePayoffData_chain (s : Strategy) (cp pr : ℝ) (h : 0 ≤ cp * pr) :
    (generatePayoffData s cp pr).Chain' (fun a b => a.price ≤ b.price) := by
  simp only [generatePayoffData]
  rw [List.chain'_map]
  have h201 : (201 : ℕ) = Nat.succ 200 := rfl
  rw [h201, List.chain'_range_succ]
  intro m _
  have hstep : 0 ≤ (cp + cp * pr - (cp - cp * pr)) / 200 := by
    apply div_nonneg _ (by norm_num)
    linarith
  have hm : (m : ℝ) * ((cp + cp * pr - (cp - cp * pr)) / 200) ≤
      ((m : ℝ) + 1) * ((cp + cp * pr - (cp - cp * pr)) / 200) := by
    apply mul_le_mul_of_nonneg_right _ hstep
    linarith
  push_cast
  linarith

/-- Claim C5: the breakeven list computed by `calculateStrategyStats` (from
the default `generatePayoffData` curve, `currentPrice > 0`) has exactly one
entry per consecutive point pair whose payoffs fall on opposite sides of the
`≤ 0` / `> 0` partition, that entry is the linear interpolation
`prevPrice + (|prevPayoff| / (|prevPayoff| + |currPayoff|)) * (currPrice -
prevPrice)`, and the entries appear in ascending price order. -/
theorem stats_breakeven_characterization (s : Strategy) (cp : ℝ) (hcp : 0 < cp) :
    (calculateStrategyStats s cp).breakeven =
      breakevenPairsSpec (generatePayoffData s cp 0.15) ∧
    ((calculateStrategyStats s cp).breakeven).Sorted (fun a b => a ≤ b) := by
  have hb : (calculateStrategyStats s cp).breakeven =
      findBreakevens (generatePayoffData s cp 0.15) := rfl
  constructor
  · rw [hb]
    exact findBreakevens_eq_pairsSpec _
  · rw [hb]
    exact findBreakevens_sorted _
      (generatePayoffData_chain s cp 0.15 (mul_nonneg hcp.le (by norm_num)))

theorem stats_breakeven_characterization_witness :
    (0 : ℝ) < 1 ∧
    ((calculateStrategyStats ⟨"Empty", []⟩ 1).breakeven =
        breakevenPairsSpec (generatePayoffData ⟨"Empty", []⟩ 1 0.15) ∧
      ((calculateStrategyStats ⟨"Empty", []⟩ 1).breakeven).Sorted (fun a b => a ≤ b)) :=
  ⟨by norm_num, stats_breakeven_characterization ⟨"Empty", []⟩ 1 (by norm_num)⟩

/-- Claim C7: a bull call spread with strikes `K1 < K2` pays
`(K2 - K1 - netDebit) * 100` at any price at or above `K2`, pays
`-netDebit * 100` at any price at or below `K1`, and stays between those two
values in between, where `netDebit` is the long premium minus the short
premium. -/
theorem bullCallSpread_payoff_bounds (K1 K2 cp d : ℝ) (hK : K1 < K2) (hcp : 0 < cp) :
    (∀ p, K2 ≤ p →
      calculateStrategyPayoff (createBullCallSpreadStrategy K1 K2 cp d) p =
        (K2 - K1 - (calculateRealisticPremium .call K1 cp d -
          calculateRealisticPremium .call K2 cp d)) * 100) ∧
    (∀ p, p ≤ K1 →
      calculateStrategyPayoff (createBullCallSpreadStrategy K1 K2 cp d) p =
        -(calculateRealisticPremium .call K1 cp d -
          calculateRealisticPremium .call K2 cp d) * 100) ∧
    (∀ p, K1 ≤ p → p ≤ K2 →
      -(calculateRealisticPremium .call K1 cp d -
          calculateRealisticPremium .call K2 cp d) * 100 ≤
        calculateStrategyPayoff (createBullCallSpreadStrategy K1 K2 cp d) p ∧
      calculateStrategyPayoff (createBullCallSpreadStrategy K1 K2 cp d) p ≤
        (K2 - K1 - (calculateRealisticPremium .call K1 cp d -
          calculateRealisticPremium .call K2 cp d)) * 100) := by
  have hpay : ∀ p : ℝ,
      calculateStrategyPayoff (createBullCallSpreadStrategy K1 K2 cp d) p =
        (max 0 (p - K1) * 1 + -(calculateRealisticPremium .call K1 cp d)) * 1 * 100 +
          (max 0 (p - K2) * (-1) + calculateRealisticPremium .call K2 cp d) * 1 * 100 := by
    intro p
    simp only [calculateStrategyPayoff, createBullCallSpreadStrategy, calculateLegPayoff,
      List.foldl_cons, List.foldl_nil]
    ring
  refine ⟨fun p hp => ?_, fun p hp => ?_, fun p hp1 hp2 => ?_⟩
  · rw [hpay, max_eq_right (by linarith), max_eq_right (by linarith)]
    ring
  · rw [hpay, max_eq_left (by linarith), max_eq_left (by linarith)]
    ring
  · rw [hpay, max_eq_right (by linarith), max_eq_left (by linarith)]
    constructor <;> nlinarith

theorem bullCallSpread_payoff_bounds_witness :
    (100 : ℝ) < 110 ∧ (0 : ℝ) < 100 ∧
    calculateStrategyPayoff (createBullCallSpreadStrategy 100 110 100 30) 120 =
      (110 - 100 - (calculateRealisticPremium .call 100 100 30 -
        calculateRealisticPremium .call 110 100 30)) * 100 :=
  ⟨by norm_num, by norm_num,
   (bullCallSpread_payoff_bounds 100 110 100 30 (by norm_num) (by norm_num)).1
     120 (by norm_num)⟩

lemma le_foldl_max (l : List ℝ) (a : EReal) :
    a ≤ l.foldl (fun m x => max m (x : EReal)) a := by
  induction l generalizing a with
  | nil => exact le_refl a
  | cons x xs ih => exact le_trans (le_max_left a (x : EReal)) (ih (max a (x : EReal)))

lemma mem_le_foldl_max (x : ℝ) : ∀ (l : List ℝ) (a : EReal), x ∈ l →
    (x : EReal) ≤ l.foldl (fun m y => max m (y : EReal)) a := by
  intro l
  induction l with
  | nil => intro a h; cases h
  | cons y ys ih =>
    intro a h
    rcases List.mem_cons.mp h with rfl | hy
    · exact le_trans (le_max_right a (x : EReal)) (le_foldl_max ys (max a (x : EReal)))
    · exact ih (max a (y : EReal)) hy

lemma foldl_min_le (l : List ℝ) (a : EReal) :
    l.foldl (fun m x => min m (x : EReal)) a ≤ a := by
  induction l generalizing a with
  | nil => exact le_refl a
  | cons x xs ih => exact le_trans (ih (min a (x : EReal))) (min_le_left a (x : EReal))

lemma foldl_min_le_mem (x : ℝ) : ∀ (l : List ℝ) (a : EReal), x ∈ l →
    l.foldl (fun m y => min m (y : EReal)) a ≤ (x : EReal) := by
  intro l
  induction l with
  | nil => intro a h; cases h
  | cons y ys ih =>
    intro a h
    rcases List.mem_cons.mp h with rfl | hy
    · exact le_trans (foldl_min_le ys (min a (x : EReal))) (min_le_right a (x : EReal))
    · exact ih (min a (y : EReal)) hy

/-- Claim C10: the payoff list behind `calculateStrategyStats` always has 201
elements, so the `Math.max`/`Math.min` folds never return their `-Infinity`/
`Infinity` starting sentinels, the defensive replacement branches are not
taken, and `maxProfit ≥ maxLoss`.  (Payoffs are modelled as real numbers, so
every payoff is finite and non-NaN by construction.) -/
theorem stats_maxProfit_ge_maxLoss (s : Strategy) (cp : ℝ) :
    ((generatePayoffData s cp 0.15).map (fun d => d.payoff)).length = 201 ∧
    (calculateStrategyStats s cp).maxProfit =
      jsMax ((generatePayoffData s cp 0.15).map (fun d => d.payoff)) ∧
    (calculateStrategyStats s cp).maxLoss =
      jsMin ((generatePayoffData s cp 0.15).map (fun d => d.payoff)) ∧
    jsMax ((generatePayoffData s cp 0.15).map (fun d => d.payoff)) ≠ ⊥ ∧
    jsMin ((generatePayoffData s cp 0.15).map (fun d => d.payoff)) ≠ ⊤ ∧
    (calculateStrategyStats s cp).maxLoss ≤ (calculateStrategyStats s cp).maxProfit := by
  have hlen : ((generatePayoffData s cp 0.15).map (fun d => d.payoff)).length = 201 := by
    simp only [List.length_map, generatePayoffData, List.length_range]
  have hne : (generatePayoffData s cp 0.15).map (fun d => d.payoff) ≠ [] := by
    intro h0
    rw [h0] at hlen
    simp at hlen
  obtain ⟨x, hx⟩ :=
    List.exists_mem_of_ne_nil ((generatePayoffData s cp 0.15).map (fun d => d.payoff)) hne
  have hxmax : (x : EReal) ≤ jsMax ((generatePayoffData s cp 0.15).map (fun d => d.payoff)) :=
    mem_le_foldl_max x _ ⊥ hx
  have hxmin : jsMin ((generatePayoffData s cp 0.15).map (fun d => d.payoff)) ≤ (x : EReal) :=
    foldl_min_le_mem x _ ⊤ hx
  have hbot : jsMax ((generatePayoffData s cp 0.15).map (fun d => d.payoff)) ≠ ⊥ := by
    intro hb
    rw [hb] at hxmax
    exact EReal.coe_ne_bot x (le_bot_iff.mp hxmax)
  have htop : jsMin ((generatePayoffData s cp 0.15).map (fun d => d.payoff)) ≠ ⊤ := by
    intro ht
    rw [ht] at hxmin
    exact EReal.coe_ne_top x (top_le_iff.mp hxmin)
  have hmaxEq : (calculateStrategyStats s cp).maxProfit =
      jsMax ((generatePayoffData s cp 0.15).map (fun d => d.payoff)) := by
    simp only [calculateStrategyStats]
    rw [if_neg hbot]
  have hminEq : (calculateStrategyStats s cp).maxLoss =
      jsMin ((generatePayoffData s cp 0.15).map (fun d => d.payoff)) := by
    simp only [calculateStrategyStats]
    rw [if_neg htop]
  refine ⟨hlen, hmaxEq, hminEq, hbot, htop, ?_⟩
  rw [hmaxEq, hminEq]
  exact le_trans hxmin hxmax

end
